import Mathlib

/-!
Verification of the smart-wait utility library (src/index.js): a retry
executor with fixed/exponential backoff, and a registry of cancellable,
updatable timeouts.  The retry executor is embedded as a structurally
recursive function recording the invocation count and the exact sleep
durations; the registry is embedded as an explicit state machine whose
entry map mirrors the JavaScript Map and whose promises are tracked by a
settlement table with first-settlement-wins semantics.
-/

namespace SmartWait

/-- A JavaScript value as far as error normalization can observe it:
either an Error-shaped value carrying a message, or any other value
carrying its textual representation (the result of String(v)). -/
inductive JsValue where
  | error (message : String)
  | other (stringRep : String)
deriving DecidableEq, Repr

/-- Message of an error-shaped value (empty for non-error values). -/
def JsValue.message : JsValue → String
  | JsValue.error m => m
  | JsValue.other _ => ""

/-- Embeds the cause normalization of the RetryError constructor:
`originalError instanceof Error ? originalError : new Error(originalError)`.
An error-shaped value is kept as-is; any other value is wrapped in an
error whose message is the value's textual representation. -/
def causeOf : JsValue → JsValue
  | JsValue.error m => JsValue.error m
  | JsValue.other s => JsValue.error s

/-- The RetryError thrown on retry exhaustion (src/index.js lines 23-31). -/
structure RetryError where
  name : String
  message : String
  cause : JsValue
  attempts : Nat
  finalDelay : Nat
deriving DecidableEq, Repr

/-- Embeds `new RetryError(originalError, attemptsMade, finalDelay)`. -/
def mkRetryError (originalError : JsValue) (attemptsMade finalDelay : Nat) : RetryError :=
  { name := "RetryError"
    message := "Retry failed after " ++ toString attemptsMade ++ " attempts"
    cause := causeOf originalError
    attempts := attemptsMade
    finalDelay := finalDelay }

/-- Configuration of waitWithRetry, with the source's defaults. -/
structure RetryConfig where
  retries : Nat := 3
  delay : Nat := 2000
  backoff : String := "fixed"
deriving DecidableEq, Repr

/-- Decidable equality for Except, needed to evaluate outcomes on
concrete inputs. -/
def exceptDecEq {E A : Type} [DecidableEq E] [DecidableEq A] :
    (a b : Except E A) → Decidable (a = b)
  | Except.ok x, Except.ok y =>
    if h : x = y then isTrue (by rw [h]) else isFalse (fun hc => h (Except.ok.inj hc))
  | Except.ok _, Except.error _ => isFalse (fun hc => Except.noConfusion hc)
  | Except.error _, Except.ok _ => isFalse (fun hc => Except.noConfusion hc)
  | Except.error e, Except.error f =>
    if h : e = f then isTrue (by rw [h]) else isFalse (fun hc => h (Except.error.inj hc))

instance {E A : Type} [DecidableEq E] [DecidableEq A] : DecidableEq (Except E A) :=
  exceptDecEq

/-- Observable outcome of one waitWithRetry run: the returned value or
thrown RetryError, how many times the operation was invoked, and the
inter-attempt sleep durations in chronological order. -/
structure RetryOutcome (V : Type) where
  result : Except RetryError V
  calls : Nat
  sleeps : List Nat
deriving DecidableEq, Repr

/-- Embeds the while loop of waitWithRetry (src/index.js lines 98-115).
The operation is modelled as a function from the 0-based invocation index
to that invocation's outcome.  `left` is `retries - attempt`; the JS
`break` when `attempt >= retries` is the `left = 0` branch, followed by
`throw new RetryError(lastError, attempt + 1, currentDelay)`.  Otherwise,
when backoff is exponential the current delay is doubled before the
sleep, the sleep is recorded, and the attempt counter advances. -/
def retryLoop {V : Type} (fn : Nat → Except JsValue V) (exponential : Bool) :
    (left : Nat) → (attempt : Nat) → (currentDelay : Nat) → (sleeps : List Nat) →
    RetryOutcome V
  | left, attempt, currentDelay, sleeps =>
    match fn attempt with
    | Except.ok v => ⟨Except.ok v, attempt + 1, sleeps⟩
    | Except.error e =>
      match left with
      | 0 => ⟨Except.error (mkRetryError e (attempt + 1) currentDelay), attempt + 1, sleeps⟩
      | left' + 1 =>
        let nextDelay := if exponential then currentDelay * 2 else currentDelay
        retryLoop fn exponential left' (attempt + 1) nextDelay (sleeps ++ [nextDelay])

/-- Embeds waitWithRetry (src/index.js lines 91-116): the loop starts at
attempt 0 with the configured delay, and backoff is exponential exactly
when the configured string equals "exponential". -/
def waitWithRetry {V : Type} (fn : Nat → Except JsValue V) (cfg : RetryConfig) :
    RetryOutcome V :=
  retryLoop fn (cfg.backoff == "exponential") cfg.retries 0 cfg.delay []

/-- The sleep durations an exponential-backoff run performs starting
from current delay cd with n remaining sleeps: cd*2, then the sleeps
from cd*2 with n-1 remaining. -/
def expSleeps (cd : Nat) : Nat → List Nat
  | 0 => []
  | n + 1 => cd * 2 :: expSleeps (cd * 2) n

/-! ## The timeout registry

The registry (src/index.js lines 3, 38-89, 118-127) is a process-wide
Map from generated identifiers to entries holding a promise controller
and a cleanup closure.  It is embedded as an explicit state: the entry
map is a list of key/entry pairs mirroring the JavaScript Map, promises
are identified by numbers and tracked in a settlement table with
first-settlement-wins semantics, and timers are numbered handles held in
a list of currently scheduled timers.  randomUUID is modelled by a
fresh-identifier counter: identifier uniqueness is the registry's stated
invariant, not a cryptographic property. -/

/-- The TimeoutError thrown or rejected with (src/index.js lines 14-21):
`super(reason || ...)` means a missing or empty reason falls back to the
default message. -/
structure TimeoutError where
  name : String
  code : String
  id : Nat
  message : String
deriving DecidableEq, Repr

/-- Embeds `new TimeoutError(id, reason)`; the JS `reason || default`
takes the default when reason is undefined or the empty string. -/
def mkTimeoutError (id : Nat) (reason : Option String) : TimeoutError :=
  { name := "TimeoutError"
    code := "ETIMEOUT"
    id := id
    message :=
      match reason with
      | some r => if r = "" then "Timeout " ++ toString id ++ " cancelled" else r
      | none => "Timeout " ++ toString id ++ " cancelled" }

/-- State of one promise: pending, resolved with a message, or rejected
with a TimeoutError. -/
inductive Settlement where
  | pending
  | resolved (message : String)
  | rejected (err : TimeoutError)
deriving DecidableEq, Repr

/-- A registry entry: the promise it controls, the scheduled timer, the
timer's duration, and the message the timer's callback resolves with. -/
structure Entry where
  pid : Nat
  tid : Nat
  ms : Nat
  fireMsg : String
deriving DecidableEq, Repr

/-- The whole observable state: the activeTimeouts Map, the settlement
of every promise ever created, the currently scheduled timers, and
fresh-name counters for identifiers, promises and timers. -/
structure RegState where
  entries : List (Nat × Entry)
  settlements : List (Nat × Settlement)
  activeTimers : List Nat
  nextId : Nat
  nextPid : Nat
  nextTimer : Nat
deriving DecidableEq, Repr

/-- The registry at process start: an empty Map, no promises, no timers. -/
def emptyReg : RegState := ⟨[], [], [], 0, 0, 0⟩

/-- Embeds Map.get: the entry stored under a key, if any. -/
def mapGet (m : List (Nat × Entry)) (k : Nat) : Option Entry :=
  (m.find? (fun p => p.1 == k)).map (fun p => p.2)

/-- Embeds Map.set: replaces the binding in place if the key is present,
otherwise appends a new binding. -/
def mapSet (m : List (Nat × Entry)) (k : Nat) (v : Entry) : List (Nat × Entry) :=
  if m.any (fun p => p.1 == k) then
    m.map (fun p => if p.1 == k then (k, v) else p)
  else
    m ++ [(k, v)]

/-- Embeds Map.delete: removes the binding for a key. -/
def mapDelete (m : List (Nat × Entry)) (k : Nat) : List (Nat × Entry) :=
  m.filter (fun p => p.1 != k)

/-- Settlement of a promise. -/
def settlementOf (ps : List (Nat × Settlement)) (pid : Nat) : Option Settlement :=
  (ps.find? (fun p => p.1 == pid)).map (fun p => p.2)

/-- Settling a promise: resolve/reject takes effect only if the promise
is still pending (first settlement wins, as for JS promises). -/
def settle (ps : List (Nat × Settlement)) (pid : Nat) (v : Settlement) :
    List (Nat × Settlement) :=
  ps.map (fun p =>
    if p.1 == pid then (p.1, if p.2 = Settlement.pending then v else p.2) else p)

/-- Embeds waitWithId (src/index.js lines 38-56): generates a fresh
identifier, creates a controller, schedules a timer whose callback
resolves with a message embedding the identifier, and registers the
entry.  Returns the identifier and the promise. -/
def waitWithId (ms : Nat) (s : RegState) : (Nat × Nat) × RegState :=
  let id := s.nextId
  let pid := s.nextPid
  let tid := s.nextTimer
  let entry : Entry := ⟨pid, tid, ms, "Completed timeout ID: " ++ toString id⟩
  (⟨id, pid⟩,
   { entries := mapSet s.entries id entry
     settlements := s.settlements ++ [(pid, Settlement.pending)]
     activeTimers := s.activeTimers ++ [tid]
     nextId := id + 1
     nextPid := pid + 1
     nextTimer := tid + 1 })

/-- Embeds cancelWait (src/index.js lines 58-65): an absent identifier
returns false with no state change; a present one has its promise
rejected with a TimeoutError and its cleanup run (timer cleared, entry
deleted), returning true. -/
def cancelWait (id : Nat) (reason : Option String) (s : RegState) : Bool × RegState :=
  match mapGet s.entries id with
  | none => (false, s)
  | some e =>
    (true,
     { s with
       settlements := settle s.settlements e.pid (Settlement.rejected (mkTimeoutError id reason))
       activeTimers := s.activeTimers.filter (fun t => t != e.tid)
       entries := mapDelete s.entries id })

/-- Embeds updateWait (src/index.js lines 67-89): an absent identifier
throws TimeoutError(id, "Timeout not found"); a present one has its old
cleanup run (old timer cleared, entry deleted, old promise untouched),
then a new controller and timer are installed under the same identifier
and the new promise is returned. -/
def updateWait (id newMs : Nat) (s : RegState) : Except TimeoutError (Nat × RegState) :=
  match mapGet s.entries id with
  | none => Except.error (mkTimeoutError id (some "Timeout not found"))
  | some e =>
    let pid := s.nextPid
    let tid := s.nextTimer
    let entry : Entry := ⟨pid, tid, newMs, "Updated timeout ID: " ++ toString id⟩
    Except.ok (pid,
      { entries := mapSet (mapDelete s.entries id) id entry
        settlements := s.settlements ++ [(pid, Settlement.pending)]
        activeTimers := (s.activeTimers.filter (fun t => t != e.tid)) ++ [tid]
        nextId := s.nextId
        nextPid := pid + 1
        nextTimer := tid + 1 })

/-- Embeds natural completion: the timer callback of the entry for an
identifier fires, resolving the promise with the entry's message and
removing the entry (src/index.js lines 47-50 and 74-77).  A fired timer
is no longer scheduled. -/
def fireTimeout (id : Nat) (s : RegState) : RegState :=
  match mapGet s.entries id with
  | none => s
  | some e =>
    { s with
      settlements := settle s.settlements e.pid (Settlement.resolved e.fireMsg)
      entries := mapDelete s.entries id
      activeTimers := s.activeTimers.filter (fun t => t != e.tid) }

/-- One iteration body of the process-exit loop (src/index.js lines
119-126): reject the entry's promise with TimeoutError(id, "Process
exiting") and run its cleanup.  In the model this never fails, hence
always ok; the surrounding loop nevertheless guards it with the
try/catch embedded in teardownLoop. -/
def teardownEntryAct (p : Nat × Entry) (s : RegState) : Except String RegState :=
  Except.ok
    { s with
      settlements := settle s.settlements p.2.pid
        (Settlement.rejected (mkTimeoutError p.1 (some "Process exiting")))
      activeTimers := s.activeTimers.filter (fun t => t != p.2.tid)
      entries := mapDelete s.entries p.1 }

/-- The process-exit loop over the remaining entries, with the source's
try/catch: a failing iteration is logged ("Cleanup error: ...") and the
loop proceeds with the next entry. -/
def teardownLoop (act : Nat × Entry → RegState → Except String RegState) :
    List (Nat × Entry) → RegState → List String → RegState × List String
  | [], s, logs => (s, logs)
  | p :: rest, s, logs =>
    match act p s with
    | Except.ok next => teardownLoop act rest next logs
    | Except.error m => teardownLoop act rest s (logs ++ ["Cleanup error: " ++ m])

/-- Embeds the process.on exit handler (src/index.js lines 118-127). -/
def teardownAll (s : RegState) : RegState × List String :=
  teardownLoop teardownEntryAct s.entries s []

/-- The registry invariant from the spec's data model: at most one entry
per identifier, and every registered identifier is older than the
fresh-identifier counter. -/
def RegInv (s : RegState) : Prop :=
  (s.entries.map Prod.fst).Nodup ∧ ∀ id ∈ s.entries.map Prod.fst, id < s.nextId

instance (s : RegState) : Decidable (RegInv s) := by
  unfold RegInv
  infer_instance

/-! ### Theorems -/

/-- Closed form of expSleeps: the i-th sleep (0-based) lasts cd * 2^(i+1). -/
theorem expSleeps_eq (n : Nat) :
    ∀ cd, expSleeps cd n = (List.range n).map (fun i => cd * 2 ^ (i + 1)) := by
  induction n with
  | zero => intro cd; simp [expSleeps]
  | succ n ih =>
    intro cd
    rw [expSleeps, ih (cd * 2), List.range_succ_eq_map, List.map_cons, List.map_map]
    refine List.cons_eq_cons.mpr ⟨by ring, ?_⟩
    apply List.map_congr_left
    intro i _
    simp only [Function.comp_apply, Nat.succ_eq_add_one, pow_succ]
    ring

/-- On an always-failing operation, the exponential loop performs, from
state (left, attempt, cd), the sleeps expSleeps cd left and exhausts
with finalDelay cd*2^left after left+1 further calls. -/
theorem retryLoop_exponential_allFail {V : Type} (err : Nat → JsValue) :
    ∀ (left attempt currentDelay : Nat) (sleeps : List Nat),
    retryLoop (V := V) (fun i => Except.error (err i)) true left attempt currentDelay sleeps =
      ⟨Except.error (mkRetryError (err (attempt + left)) (attempt + left + 1)
          (currentDelay * 2 ^ left)),
        attempt + left + 1,
        sleeps ++ expSleeps currentDelay left⟩ := by
  intro left
  induction left with
  | zero =>
    intro attempt currentDelay sleeps
    simp [retryLoop, expSleeps]
  | succ left ih =>
    intro attempt currentDelay sleeps
    rw [retryLoop]
    simp only [reduceIte]
    rw [ih (attempt + 1) (currentDelay * 2) (sleeps ++ [currentDelay * 2])]
    have harith : currentDelay * 2 * 2 ^ left = currentDelay * 2 ^ (left + 1) := by ring
    have hattempt : attempt + 1 + left = attempt + (left + 1) := by omega
    rw [harith, hattempt, expSleeps, List.append_assoc, List.singleton_append]

/-- On an always-failing operation, the fixed-backoff loop never changes
the delay, sleeps the same duration each round, and exhausts with that
delay. -/
theorem retryLoop_fixed_allFail {V : Type} (err : Nat → JsValue) :
    ∀ (left attempt currentDelay : Nat) (sleeps : List Nat),
    retryLoop (V := V) (fun i => Except.error (err i)) false left attempt currentDelay sleeps =
      ⟨Except.error (mkRetryError (err (attempt + left)) (attempt + left + 1) currentDelay),
        attempt + left + 1,
        sleeps ++ List.replicate left currentDelay⟩ := by
  intro left
  induction left with
  | zero =>
    intro attempt currentDelay sleeps
    simp [retryLoop]
  | succ left ih =>
    intro attempt currentDelay sleeps
    rw [retryLoop]
    simp only [show (if (false = true) then currentDelay * 2 else currentDelay) =
      currentDelay from rfl]
    rw [ih (attempt + 1) currentDelay (sleeps ++ [currentDelay])]
    have hattempt : attempt + 1 + left = attempt + (left + 1) := by omega
    rw [hattempt, List.replicate_succ, List.append_assoc, List.singleton_append]

/-- C1: with backoff "exponential" on an always-failing operation, the
inter-attempt sleeps are d*2, d*4, ..., d*2^r (the delay is doubled
before each sleep) and the RetryError reports finalDelay d*2^r; in
particular retries 2, delay 100 reports finalDelay 400. -/
theorem retry_exponential_exhaustion {V : Type} (err : Nat → JsValue) (r d : Nat) :
    (waitWithRetry (V := V) (fun i => Except.error (err i))
        { retries := r, delay := d, backoff := "exponential" }).sleeps =
      (List.range r).map (fun i => d * 2 ^ (i + 1)) ∧
    (waitWithRetry (V := V) (fun i => Except.error (err i))
        { retries := r, delay := d, backoff := "exponential" }).result =
      Except.error (mkRetryError (err r) (r + 1) (d * 2 ^ r)) ∧
    (mkRetryError (err 2) 3 (100 * 2 ^ 2)).finalDelay = 400 := by
  have h := retryLoop_exponential_allFail (V := V) err r 0 d []
  have hw : waitWithRetry (V := V) (fun i => Except.error (err i))
      { retries := r, delay := d, backoff := "exponential" } =
      retryLoop (fun i => Except.error (err i)) true r 0 d [] := rfl
  rw [hw, h]
  refine ⟨by simp [expSleeps_eq], by simp, rfl⟩

/-- C2: with backoff "fixed" on an always-failing operation, the
operation is invoked exactly r+1 times, every inter-attempt sleep lasts
d (there are exactly r of them, none after the last attempt), and the
RetryError reports attempts r+1 and finalDelay d; in particular r = 0
yields one call, no sleep, attempts 1. -/
theorem retry_fixed_exhaustion {V : Type} (err : Nat → JsValue) (r d : Nat) :
    waitWithRetry (V := V) (fun i => Except.error (err i))
        { retries := r, delay := d, backoff := "fixed" } =
      ⟨Except.error (mkRetryError (err r) (r + 1) d), r + 1, List.replicate r d⟩ ∧
    (waitWithRetry (V := V) (fun i => Except.error (err i))
        { retries := 0, delay := d, backoff := "fixed" }).calls = 1 := by
  have h := retryLoop_fixed_allFail (V := V) err r 0 d []
  have h0 := retryLoop_fixed_allFail (V := V) err 0 0 d []
  have hw : ∀ n, waitWithRetry (V := V) (fun i => Except.error (err i))
      { retries := n, delay := d, backoff := "fixed" } =
      retryLoop (fun i => Except.error (err i)) false n 0 d [] := fun n => rfl
  rw [hw r, hw 0, h, h0]
  simp

/-- If the operation first succeeds j calls after the current attempt and
j does not exceed the remaining budget, the loop returns that success
after exactly j further sleeps. -/
theorem retryLoop_success {V : Type} (fn : Nat → Except JsValue V) (exp : Bool) (v : V) :
    ∀ (j left attempt currentDelay : Nat) (sleeps : List Nat), j ≤ left →
    fn (attempt + j) = Except.ok v →
    (∀ i, attempt ≤ i → i < attempt + j → ∃ e, fn i = Except.error e) →
    ∃ extra : List Nat, extra.length = j ∧
      retryLoop fn exp left attempt currentDelay sleeps =
        ⟨Except.ok v, attempt + j + 1, sleeps ++ extra⟩ := by
  intro j
  induction j with
  | zero =>
    intro left attempt currentDelay sleeps _ hsucc _
    refine ⟨[], rfl, ?_⟩
    rw [retryLoop]
    simp only [Nat.add_zero] at hsucc
    rw [hsucc]
    simp
  | succ j ih =>
    intro left attempt currentDelay sleeps hle hsucc hfail
    obtain ⟨e, he⟩ := hfail attempt (Nat.le_refl attempt) (by omega)
    obtain ⟨left', rfl⟩ : ∃ l, left = l + 1 := ⟨left - 1, by omega⟩
    have hsucc' : fn (attempt + 1 + j) = Except.ok v := by
      have : attempt + 1 + j = attempt + (j + 1) := by omega
      rw [this]; exact hsucc
    have hfail' : ∀ i, attempt + 1 ≤ i → i < attempt + 1 + j → ∃ e, fn i = Except.error e := by
      intro i h1 h2
      exact hfail i (by omega) (by omega)
    obtain ⟨extra, hlen, heq⟩ :=
      ih left' (attempt + 1) (if exp = true then currentDelay * 2 else currentDelay)
        (sleeps ++ [if exp = true then currentDelay * 2 else currentDelay])
        (by omega) hsucc' hfail'
    refine ⟨(if exp = true then currentDelay * 2 else currentDelay) :: extra, by simp [hlen], ?_⟩
    rw [retryLoop, he]
    simp only []
    rw [heq]
    have : attempt + 1 + j + 1 = attempt + (j + 1) + 1 := by omega
    rw [this, List.append_assoc, List.singleton_append]

/-- C8: if the operation succeeds on its k-th invocation with
k <= retries + 1 (failing on all earlier invocations), waitWithRetry
returns that success value, invokes the operation exactly k times, and
performs exactly k-1 sleeps. -/
theorem retry_success_kth {V : Type} (v : V) (fn : Nat → Except JsValue V)
    (cfg : RetryConfig) (k : Nat)
    (hk1 : 1 ≤ k) (hk : k ≤ cfg.retries + 1)
    (hsucc : fn (k - 1) = Except.ok v)
    (hfail : ∀ i, i < k - 1 → ∃ e, fn i = Except.error e) :
    (waitWithRetry fn cfg).result = Except.ok v ∧
    (waitWithRetry fn cfg).calls = k ∧
    (waitWithRetry fn cfg).sleeps.length = k - 1 := by
  have hw : waitWithRetry fn cfg =
      retryLoop fn (cfg.backoff == "exponential") cfg.retries 0 cfg.delay [] := rfl
  obtain ⟨extra, hlen, heq⟩ :=
    retryLoop_success fn (cfg.backoff == "exponential") v (k - 1) cfg.retries 0 cfg.delay []
      (by omega) (by simpa using hsucc) (by simpa using hfail)
  rw [hw, heq]
  refine ⟨rfl, by simp; omega, by simp [hlen]⟩

/-- Witness for C8: an operation failing once then succeeding on its
second invocation, with retries 2: value returned, 2 calls, 1 sleep. -/
theorem retry_success_kth_witness :
    (waitWithRetry (fun i => if i = 1 then Except.ok 7 else Except.error (JsValue.other "e"))
        { retries := 2, delay := 5, backoff := "fixed" }).result = Except.ok 7 ∧
    (waitWithRetry (fun i => if i = 1 then Except.ok 7 else Except.error (JsValue.other "e"))
        { retries := 2, delay := 5, backoff := "fixed" }).calls = 2 ∧
    (waitWithRetry (fun i => if i = 1 then Except.ok 7 else Except.error (JsValue.other "e"))
        { retries := 2, delay := 5, backoff := "fixed" }).sleeps.length = 1 :=
  retry_success_kth 7 (fun i => if i = 1 then Except.ok 7 else Except.error (JsValue.other "e"))
    { retries := 2, delay := 5, backoff := "fixed" } 2
    (by decide) (by decide) (by decide)
    (fun i hi => by
      have h0 : i = 0 := by omega
      subst h0
      exact ⟨JsValue.other "e", rfl⟩)

/-- C7: the cause normalization of RetryError keeps an error-shaped
failure as-is, wraps any other failure value in an error-shaped wrapper
whose message is the value's textual representation, and in particular
the non-error rejection value 42, passed through retry exhaustion,
yields a cause whose message is "42". -/
theorem retry_cause_normalization :
    (∀ m, causeOf (JsValue.error m) = JsValue.error m) ∧
    (∀ s, causeOf (JsValue.other s) = JsValue.error s) ∧
    (waitWithRetry (V := Nat) (fun _ => Except.error (JsValue.other "42"))
        { retries := 1, delay := 0, backoff := "fixed" }).result =
      Except.error (mkRetryError (JsValue.other "42") 2 0) ∧
    (mkRetryError (JsValue.other "42") 2 0).cause.message = "42" :=
  ⟨fun _ => rfl, fun _ => rfl, by decide, rfl⟩

/-- Any backoff string other than "exponential" makes waitWithRetry run
the fixed-backoff loop. -/
theorem waitWithRetry_backoff_ne {V : Type} (fn : Nat → Except JsValue V)
    (r d : Nat) (b : String) (hb : b ≠ "exponential") :
    waitWithRetry fn { retries := r, delay := d, backoff := b } =
      waitWithRetry fn { retries := r, delay := d, backoff := "fixed" } := by
  have h1 : waitWithRetry fn { retries := r, delay := d, backoff := b } =
      retryLoop fn (b == "exponential") r 0 d [] := rfl
  have h2 : waitWithRetry fn { retries := r, delay := d, backoff := "fixed" } =
      retryLoop fn false r 0 d [] := rfl
  have hb2 : (b == "exponential") = false := beq_eq_false_iff_ne.mpr hb
  rw [h1, h2, hb2]

/-- C10: for any backoff string other than "exponential" (misspellings
included), waitWithRetry behaves identically to backoff "fixed": the
delay is never modified, every inter-attempt sleep on an always-failing
operation lasts the configured delay, and the reported finalDelay on
exhaustion equals the configured delay. -/
theorem retry_nonexponential_is_fixed {V : Type} (fn : Nat → Except JsValue V)
    (err : Nat → JsValue) (r d : Nat) (b : String) (hb : b ≠ "exponential") :
    waitWithRetry fn { retries := r, delay := d, backoff := b } =
      waitWithRetry fn { retries := r, delay := d, backoff := "fixed" } ∧
    (waitWithRetry (V := V) (fun i => Except.error (err i))
        { retries := r, delay := d, backoff := b }).sleeps = List.replicate r d ∧
    (waitWithRetry (V := V) (fun i => Except.error (err i))
        { retries := r, delay := d, backoff := b }).result =
      Except.error (mkRetryError (err r) (r + 1) d) := by
  refine ⟨waitWithRetry_backoff_ne fn r d b hb, ?_, ?_⟩ <;>
    rw [waitWithRetry_backoff_ne (fun i => Except.error (err i)) r d b hb] <;>
    rw [show waitWithRetry (V := V) (fun i => Except.error (err i))
        { retries := r, delay := d, backoff := "fixed" } =
        retryLoop (fun i => Except.error (err i)) false r 0 d [] from rfl] <;>
    rw [retryLoop_fixed_allFail err r 0 d []] <;> simp

/-- Witness for C10: the misspelled backoff "expnential" behaves exactly
like "fixed" on a concrete always-failing operation. -/
theorem retry_nonexponential_is_fixed_witness :
    waitWithRetry (V := Nat) (fun _ => Except.error (JsValue.other "x"))
        { retries := 1, delay := 5, backoff := "expnential" } =
      waitWithRetry (fun _ => Except.error (JsValue.other "x"))
        { retries := 1, delay := 5, backoff := "fixed" } ∧
    (waitWithRetry (V := Nat) (fun _ => Except.error (JsValue.other "x"))
        { retries := 1, delay := 5, backoff := "expnential" }).sleeps = List.replicate 1 5 ∧
    (waitWithRetry (V := Nat) (fun _ => Except.error (JsValue.other "x"))
        { retries := 1, delay := 5, backoff := "expnential" }).result =
      Except.error (mkRetryError (JsValue.other "x") 2 5) :=
  retry_nonexponential_is_fixed (fun _ => Except.error (JsValue.other "x"))
    (fun _ => JsValue.other "x") 1 5 "expnential" (by decide)


/-! ### Lemmas about the Map and settlement-table embeddings -/

theorem mapGet_eq_none_of_forall {m : List (Nat × Entry)} {k : Nat}
    (h : ∀ p ∈ m, p.1 ≠ k) : mapGet m k = none := by
  unfold mapGet
  have hfind : m.find? (fun p => p.1 == k) = none := by
    rw [List.find?_eq_none]
    intro p hp
    simpa using h p hp
  rw [hfind]
  rfl

theorem forall_of_mapGet_eq_none {m : List (Nat × Entry)} {k : Nat}
    (h : mapGet m k = none) : ∀ p ∈ m, p.1 ≠ k := by
  intro p hp
  unfold mapGet at h
  rcases hfind : m.find? (fun p => p.1 == k) with _ | q
  · have := List.find?_eq_none.mp hfind p hp
    simpa using this
  · rw [hfind] at h
    simp at h

theorem mapGet_cons (p : Nat × Entry) (m : List (Nat × Entry)) (k : Nat) :
    mapGet (p :: m) k = if (p.1 == k) = true then some p.2 else mapGet m k := by
  unfold mapGet
  rcases hp : (p.1 == k) with _ | _
  · rw [List.find?_cons_of_neg _ (by simp [hp]), if_neg (by simp [hp])]
  · rw [List.find?_cons_of_pos (p := fun (x : Nat × Entry) => x.1 == k) _ hp, if_pos rfl, Option.map_some']

theorem mem_of_mapGet_eq_some {m : List (Nat × Entry)} {k : Nat} {e : Entry}
    (h : mapGet m k = some e) : (k, e) ∈ m := by
  induction m with
  | nil => simp [mapGet] at h
  | cons p m ih =>
    rw [mapGet_cons] at h
    by_cases hp : (p.1 == k) = true
    · rw [if_pos hp] at h
      have hk : p.1 = k := by simpa using hp
      have he : p.2 = e := by simpa using h
      have : p = (k, e) := by
        obtain ⟨p1, p2⟩ := p
        simp only at hk he
        rw [hk, he]
      rw [← this]
      exact List.mem_cons_self p m
    · rw [if_neg hp] at h
      exact List.mem_cons_of_mem p (ih h)

theorem mapGet_mapDelete_self (m : List (Nat × Entry)) (k : Nat) :
    mapGet (mapDelete m k) k = none := by
  apply mapGet_eq_none_of_forall
  intro p hp
  have := (List.mem_filter.mp hp).2
  simpa using this

theorem keys_mapDelete_sublist (m : List (Nat × Entry)) (k : Nat) :
    ((mapDelete m k).map Prod.fst).Sublist (m.map Prod.fst) :=
  List.Sublist.map Prod.fst (List.filter_sublist m)

theorem mapSet_fresh {m : List (Nat × Entry)} {k : Nat} (v : Entry)
    (h : ∀ p ∈ m, p.1 ≠ k) : mapSet m k v = m ++ [(k, v)] := by
  unfold mapSet
  have : m.any (fun p => p.1 == k) = false := by
    rw [List.any_eq_false]
    intro p hp
    simpa using h p hp
  rw [this]
  simp

theorem mapGet_append_fresh {m : List (Nat × Entry)} {k : Nat} {v : Entry}
    (h : ∀ p ∈ m, p.1 ≠ k) : mapGet (m ++ [(k, v)]) k = some v := by
  unfold mapGet
  rw [List.find?_append]
  have hnone : m.find? (fun p => p.1 == k) = none := by
    rw [List.find?_eq_none]
    intro p hp
    simpa using h p hp
  rw [hnone]
  simp [List.find?]

theorem settlementOf_cons (q : Nat × Settlement) (ps : List (Nat × Settlement))
    (pid : Nat) :
    settlementOf (q :: ps) pid =
      if (q.1 == pid) = true then some q.2 else settlementOf ps pid := by
  unfold settlementOf
  rcases hq : (q.1 == pid) with _ | _
  · rw [List.find?_cons_of_neg _ (by simp [hq]), if_neg (by simp [hq])]
  · rw [List.find?_cons_of_pos (p := fun (x : Nat × Settlement) => x.1 == pid) _ hq, if_pos rfl, Option.map_some']

theorem settle_cons (q : Nat × Settlement) (ps : List (Nat × Settlement))
    (pid : Nat) (v : Settlement) :
    settle (q :: ps) pid v =
      (if (q.1 == pid) = true then (q.1, if q.2 = Settlement.pending then v else q.2)
       else q) :: settle ps pid v := rfl

theorem settlementOf_settle_ne (ps : List (Nat × Settlement)) (pid : Nat)
    (v : Settlement) (pid' : Nat) (h : pid' ≠ pid) :
    settlementOf (settle ps pid v) pid' = settlementOf ps pid' := by
  induction ps with
  | nil => rfl
  | cons q ps ih =>
    rw [settle_cons, settlementOf_cons, settlementOf_cons]
    by_cases hqp : (q.1 == pid) = true
    · have h2 : (q.1 == pid') = false := by
        have : q.1 = pid := by simpa using hqp
        simp only [beq_eq_false_iff_ne, this]
        exact fun hc => h hc.symm
      rw [if_pos hqp]
      simp only [h2]
      simpa using ih
    · rw [if_neg hqp]
      by_cases hq2 : (q.1 == pid') = true
      · rw [if_pos hq2, if_pos hq2]
      · rw [if_neg hq2, if_neg hq2]
        exact ih

theorem settlementOf_settle_self {ps : List (Nat × Settlement)} {pid : Nat}
    (v : Settlement) (h : settlementOf ps pid = some Settlement.pending) :
    settlementOf (settle ps pid v) pid = some v := by
  induction ps with
  | nil => simp [settlementOf] at h
  | cons q ps ih =>
    rw [settlementOf_cons] at h
    rw [settle_cons, settlementOf_cons]
    by_cases hq : (q.1 == pid) = true
    · rw [if_pos hq] at h
      have hq2 : q.2 = Settlement.pending := by simpa using h
      rw [if_pos hq]
      simp only [hq, if_pos rfl, hq2, if_pos rfl]
      simp
    · rw [if_neg hq] at h
      rw [if_neg hq, if_neg hq]
      exact ih h

theorem settlementOf_append_of_some {ps qs : List (Nat × Settlement)} {pid : Nat}
    {x : Settlement} (h : settlementOf ps pid = some x) :
    settlementOf (ps ++ qs) pid = some x := by
  induction ps with
  | nil => simp [settlementOf] at h
  | cons q ps ih =>
    rw [settlementOf_cons] at h
    rw [List.cons_append, settlementOf_cons]
    by_cases hq : (q.1 == pid) = true
    · rw [if_pos hq] at h
      rw [if_pos hq]
      exact h
    · rw [if_neg hq] at h
      rw [if_neg hq]
      exact ih h

theorem settlementOf_append_of_none {ps qs : List (Nat × Settlement)} {pid : Nat}
    (h : settlementOf ps pid = none) :
    settlementOf (ps ++ qs) pid = settlementOf qs pid := by
  induction ps with
  | nil => simp
  | cons q ps ih =>
    rw [settlementOf_cons] at h
    rw [List.cons_append, settlementOf_cons]
    by_cases hq : (q.1 == pid) = true
    · rw [if_pos hq] at h
      simp at h
    · rw [if_neg hq] at h
      rw [if_neg hq]
      exact ih h

theorem settlementOf_eq_none_of_lt {ps : List (Nat × Settlement)} {n : Nat}
    (h : ∀ q ∈ ps, q.1 < n) : settlementOf ps n = none := by
  unfold settlementOf
  have hfind : ps.find? (fun p => p.1 == n) = none := by
    rw [List.find?_eq_none]
    intro q hq
    have hlt := h q hq
    simp only [beq_iff_eq]
    omega
  rw [hfind]
  rfl

theorem mem_of_settlementOf_eq_some {ps : List (Nat × Settlement)} {pid : Nat}
    {x : Settlement} (h : settlementOf ps pid = some x) : (pid, x) ∈ ps := by
  induction ps with
  | nil => simp [settlementOf] at h
  | cons q ps ih =>
    rw [settlementOf_cons] at h
    by_cases hq : (q.1 == pid) = true
    · rw [if_pos hq] at h
      have hk : q.1 = pid := by simpa using hq
      have hx : q.2 = x := by simpa using h
      have : q = (pid, x) := by
        obtain ⟨q1, q2⟩ := q
        simp only at hk hx
        rw [hk, hx]
      rw [← this]
      exact List.mem_cons_self q ps
    · rw [if_neg hq] at h
      exact List.mem_cons_of_mem q (ih h)

theorem forall_ne_of_mapDelete (m : List (Nat × Entry)) (k : Nat) :
    ∀ p ∈ mapDelete m k, p.1 ≠ k := by
  intro p hp
  have := (List.mem_filter.mp hp).2
  simpa using this

/-- cancelWait on an unregistered identifier: false, no state change. -/
theorem cancelWait_not_found {s : RegState} {id : Nat} (reason : Option String)
    (h : mapGet s.entries id = none) : cancelWait id reason s = (false, s) := by
  unfold cancelWait
  rw [h]

/-- updateWait on an unregistered identifier: throws "Timeout not found". -/
theorem updateWait_not_found {s : RegState} {id : Nat} (newMs : Nat)
    (h : mapGet s.entries id = none) :
    updateWait id newMs s = Except.error (mkTimeoutError id (some "Timeout not found")) := by
  unfold updateWait
  rw [h]

/-- cancelWait on a registered identifier, in closed form. -/
theorem cancelWait_found {s : RegState} {id : Nat} {e : Entry} (reason : Option String)
    (h : mapGet s.entries id = some e) :
    cancelWait id reason s =
      (true,
       { s with
         settlements :=
           settle s.settlements e.pid (Settlement.rejected (mkTimeoutError id reason))
         activeTimers := s.activeTimers.filter (fun t => t != e.tid)
         entries := mapDelete s.entries id }) := by
  unfold cancelWait
  rw [h]

/-- updateWait on a registered identifier, in closed form. -/
theorem updateWait_found {s : RegState} {id : Nat} {e : Entry} (newMs : Nat)
    (h : mapGet s.entries id = some e) :
    updateWait id newMs s =
      Except.ok (s.nextPid,
        { entries := mapSet (mapDelete s.entries id) id
            ⟨s.nextPid, s.nextTimer, newMs, "Updated timeout ID: " ++ toString id⟩
          settlements := s.settlements ++ [(s.nextPid, Settlement.pending)]
          activeTimers := (s.activeTimers.filter (fun t => t != e.tid)) ++ [s.nextTimer]
          nextId := s.nextId
          nextPid := s.nextPid + 1
          nextTimer := s.nextTimer + 1 }) := by
  unfold updateWait
  rw [h]

/-- fireTimeout on a registered identifier, in closed form. -/
theorem fireTimeout_found {s : RegState} {id : Nat} {e : Entry}
    (h : mapGet s.entries id = some e) :
    fireTimeout id s =
      { s with
        settlements := settle s.settlements e.pid (Settlement.resolved e.fireMsg)
        entries := mapDelete s.entries id
        activeTimers := s.activeTimers.filter (fun t => t != e.tid) } := by
  unfold fireTimeout
  rw [h]

/-- C6: for every identifier with no registry entry, cancel returns
false with no side effect on the registry (cancelWait is a total
function into Bool and state: it never throws), while update fails by
raising a TimeoutError whose reason is "Timeout not found". -/
theorem unknown_id_cancel_update (s : RegState) (id : Nat) (reason : Option String)
    (newMs : Nat) (h : mapGet s.entries id = none) :
    cancelWait id reason s = (false, s) ∧
    updateWait id newMs s = Except.error (mkTimeoutError id (some "Timeout not found")) ∧
    (mkTimeoutError id (some "Timeout not found")).message = "Timeout not found" :=
  ⟨cancelWait_not_found reason h, updateWait_not_found newMs h, rfl⟩

/-- Witness for C6 at the empty registry with identifier 0. -/
theorem unknown_id_cancel_update_witness :
    cancelWait 0 none emptyReg = (false, emptyReg) ∧
    updateWait 0 5 emptyReg = Except.error (mkTimeoutError 0 (some "Timeout not found")) ∧
    (mkTimeoutError 0 (some "Timeout not found")).message = "Timeout not found" :=
  unknown_id_cancel_update emptyReg 0 none 5 (by decide)

/-- C5: cancelling a live identifier returns true, rejects its promise
with a TimeoutError whose message is the supplied reason — or, when the
reason is absent (undefined or the empty string, both falsy), the
default `Timeout {id} cancelled` — and removes the entry, so the very
next cancel (and hence every subsequent one, the state being unchanged)
returns false. -/
theorem cancel_live_id (s : RegState) (id : Nat) (e : Entry)
    (reason reason2 : Option String) (r : String) (hr : r ≠ "")
    (he : mapGet s.entries id = some e)
    (hpend : settlementOf s.settlements e.pid = some Settlement.pending) :
    (cancelWait id reason s).1 = true ∧
    settlementOf (cancelWait id reason s).2.settlements e.pid =
      some (Settlement.rejected (mkTimeoutError id reason)) ∧
    cancelWait id reason2 (cancelWait id reason s).2 =
      (false, (cancelWait id reason s).2) ∧
    (mkTimeoutError id (some r)).message = r ∧
    (mkTimeoutError id none).message = "Timeout " ++ toString id ++ " cancelled" := by
  rw [cancelWait_found reason he]
  refine ⟨rfl, ?_, ?_, ?_, rfl⟩
  · exact settlementOf_settle_self _ hpend
  · exact cancelWait_not_found reason2 (mapGet_mapDelete_self s.entries id)
  · simp [mkTimeoutError, hr]

/-- Witness for C5: a concrete registry with one live entry, cancelled
with reason "bye". -/
theorem cancel_live_id_witness :
    (cancelWait 0 (some "bye") (waitWithId 100 emptyReg).2).1 = true ∧
    settlementOf (cancelWait 0 (some "bye") (waitWithId 100 emptyReg).2).2.settlements 0 =
      some (Settlement.rejected (mkTimeoutError 0 (some "bye"))) ∧
    cancelWait 0 none (cancelWait 0 (some "bye") (waitWithId 100 emptyReg).2).2 =
      (false, (cancelWait 0 (some "bye") (waitWithId 100 emptyReg).2).2) ∧
    (mkTimeoutError 0 (some "bye")).message = "bye" ∧
    (mkTimeoutError 0 none).message = "Timeout " ++ toString 0 ++ " cancelled" :=
  cancel_live_id (waitWithId 100 emptyReg).2 0
    ⟨0, 0, 100, "Completed timeout ID: 0"⟩ (some "bye") none "bye"
    (by decide) (by decide) (by decide)

/-- C4: updateWait on a live identifier clears the old entry's timer
without ever settling the old promise (it stays pending: abandoned, not
resolved or rejected by the update path), installs a fresh promise and a
fresh timer under the same identifier, and returns the new promise; a
cancel performed after the update rejects the new promise and still
leaves the old promise pending. -/
theorem update_live_id (s : RegState) (id : Nat) (e : Entry) (newMs : Nat)
    (reason : Option String) (res : Nat × RegState)
    (he : mapGet s.entries id = some e)
    (hpend : settlementOf s.settlements e.pid = some Settlement.pending)
    (hbound : ∀ q ∈ s.settlements, q.1 < s.nextPid)
    (htid : e.tid < s.nextTimer)
    (hres : updateWait id newMs s = Except.ok res) :
    res.1 = s.nextPid ∧
    res.1 ≠ e.pid ∧
    settlementOf res.2.settlements e.pid = some Settlement.pending ∧
    settlementOf res.2.settlements res.1 = some Settlement.pending ∧
    mapGet res.2.entries id =
      some ⟨s.nextPid, s.nextTimer, newMs, "Updated timeout ID: " ++ toString id⟩ ∧
    e.tid ∉ res.2.activeTimers ∧
    s.nextTimer ∈ res.2.activeTimers ∧
    (cancelWait id reason res.2).1 = true ∧
    settlementOf (cancelWait id reason res.2).2.settlements res.1 =
      some (Settlement.rejected (mkTimeoutError id reason)) ∧
    settlementOf (cancelWait id reason res.2).2.settlements e.pid =
      some Settlement.pending := by
  rw [updateWait_found newMs he] at hres
  have hres2 := (Except.ok.inj hres).symm
  subst hres2
  have hepid : e.pid < s.nextPid := by
    have hmem := mem_of_settlementOf_eq_some hpend
    exact hbound (e.pid, Settlement.pending) hmem
  have hne : s.nextPid ≠ e.pid := by omega
  have hold : settlementOf (s.settlements ++ [(s.nextPid, Settlement.pending)]) e.pid =
      some Settlement.pending := settlementOf_append_of_some hpend
  have hnew : settlementOf (s.settlements ++ [(s.nextPid, Settlement.pending)]) s.nextPid =
      some Settlement.pending := by
    rw [settlementOf_append_of_none (settlementOf_eq_none_of_lt hbound)]
    rw [settlementOf_cons]
    simp
  have hset : mapSet (mapDelete s.entries id) id
      ⟨s.nextPid, s.nextTimer, newMs, "Updated timeout ID: " ++ toString id⟩ =
      mapDelete s.entries id ++
        [(id, ⟨s.nextPid, s.nextTimer, newMs, "Updated timeout ID: " ++ toString id⟩)] :=
    mapSet_fresh _ (forall_ne_of_mapDelete s.entries id)
  have hget : mapGet (mapSet (mapDelete s.entries id) id
      ⟨s.nextPid, s.nextTimer, newMs, "Updated timeout ID: " ++ toString id⟩) id =
      some ⟨s.nextPid, s.nextTimer, newMs, "Updated timeout ID: " ++ toString id⟩ := by
    rw [hset]
    exact mapGet_append_fresh (forall_ne_of_mapDelete s.entries id)
  refine ⟨rfl, hne, hold, hnew, hget, ?_, ?_, ?_, ?_, ?_⟩
  · simp only [List.mem_append, List.mem_filter]
    rintro (⟨_, hkeep⟩ | hnewt)
    · simp at hkeep
    · simp at hnewt
      omega
  · simp
  · rw [cancelWait_found reason hget]
  · rw [cancelWait_found reason hget]
    exact settlementOf_settle_self _ hnew
  · rw [cancelWait_found reason hget]
    simp only []
    rw [settlementOf_settle_ne _ _ _ _ (by omega)]
    exact hold

/-- Witness for C4: a single created timeout, updated from 100 to 300 ms
and then cancelled. -/
theorem update_live_id_witness :
    ((1 : Nat),
      ({ entries := [(0, ⟨1, 1, 300, "Updated timeout ID: " ++ toString 0⟩)]
         settlements := [(0, Settlement.pending), (1, Settlement.pending)]
         activeTimers := [1]
         nextId := 1
         nextPid := 2
         nextTimer := 2 } : RegState)).1 = (waitWithId 100 emptyReg).2.nextPid ∧
    ((1 : Nat),
      ({ entries := [(0, ⟨1, 1, 300, "Updated timeout ID: " ++ toString 0⟩)]
         settlements := [(0, Settlement.pending), (1, Settlement.pending)]
         activeTimers := [1]
         nextId := 1
         nextPid := 2
         nextTimer := 2 } : RegState)).1 ≠ (0 : Nat) ∧
    settlementOf [(0, Settlement.pending), (1, Settlement.pending)] 0 =
      some Settlement.pending ∧
    settlementOf [(0, Settlement.pending), (1, Settlement.pending)] 1 =
      some Settlement.pending ∧
    mapGet [(0, ⟨1, 1, 300, "Updated timeout ID: " ++ toString 0⟩)] 0 =
      some ⟨(waitWithId 100 emptyReg).2.nextPid, (waitWithId 100 emptyReg).2.nextTimer,
        300, "Updated timeout ID: " ++ toString 0⟩ ∧
    (0 : Nat) ∉ [(1 : Nat)] ∧
    (waitWithId 100 emptyReg).2.nextTimer ∈ [(1 : Nat)] ∧
    (cancelWait 0 (some "late")
      { entries := [(0, ⟨1, 1, 300, "Updated timeout ID: " ++ toString 0⟩)]
        settlements := [(0, Settlement.pending), (1, Settlement.pending)]
        activeTimers := [1]
        nextId := 1
        nextPid := 2
        nextTimer := 2 }).1 = true ∧
    settlementOf (cancelWait 0 (some "late")
      { entries := [(0, ⟨1, 1, 300, "Updated timeout ID: " ++ toString 0⟩)]
        settlements := [(0, Settlement.pending), (1, Settlement.pending)]
        activeTimers := [1]
        nextId := 1
        nextPid := 2
        nextTimer := 2 }).2.settlements 1 =
      some (Settlement.rejected (mkTimeoutError 0 (some "late"))) ∧
    settlementOf (cancelWait 0 (some "late")
      { entries := [(0, ⟨1, 1, 300, "Updated timeout ID: " ++ toString 0⟩)]
        settlements := [(0, Settlement.pending), (1, Settlement.pending)]
        activeTimers := [1]
        nextId := 1
        nextPid := 2
        nextTimer := 2 }).2.settlements 0 = some Settlement.pending := by
  have h := update_live_id (waitWithId 100 emptyReg).2 0
    ⟨0, 0, 100, "Completed timeout ID: 0"⟩ 300 (some "late")
    ((1 : Nat),
      { entries := [(0, ⟨1, 1, 300, "Updated timeout ID: " ++ toString 0⟩)]
        settlements := [(0, Settlement.pending), (1, Settlement.pending)]
        activeTimers := [1]
        nextId := 1
        nextPid := 2
        nextTimer := 2 })
    (by decide) (by decide) (by decide) (by decide) (by decide)
  exact h

/-! ### Preservation of the registry invariant -/

theorem regInv_entries_delete {s : RegState} (h : RegInv s) (id : Nat) :
    ((mapDelete s.entries id).map Prod.fst).Nodup ∧
    ∀ k ∈ (mapDelete s.entries id).map Prod.fst, k < s.nextId :=
  ⟨List.Nodup.sublist (keys_mapDelete_sublist _ _) h.1,
   fun k hk => h.2 k ((keys_mapDelete_sublist _ _).subset hk)⟩

theorem RegInv_waitWithId (ms : Nat) {s : RegState} (h : RegInv s) :
    RegInv (waitWithId ms s).2 := by
  obtain ⟨hnd, hlt⟩ := h
  have hfresh : ∀ p ∈ s.entries, p.1 ≠ s.nextId := by
    intro p hp
    have := hlt p.1 (List.mem_map_of_mem Prod.fst hp)
    omega
  unfold waitWithId RegInv
  simp only []
  rw [mapSet_fresh _ hfresh, List.map_append]
  constructor
  · rw [List.nodup_append]
    refine ⟨hnd, by simp, ?_⟩
    intro a ha hb
    simp only [List.map_cons, List.map_nil, List.mem_singleton] at hb
    have := hlt a ha
    omega
  · intro k hk
    rcases List.mem_append.mp hk with hk | hk
    · have := hlt k hk; omega
    · simp only [List.map_cons, List.map_nil, List.mem_singleton] at hk
      omega

theorem RegInv_cancelWait (id : Nat) (reason : Option String) {s : RegState}
    (h : RegInv s) : RegInv (cancelWait id reason s).2 := by
  rcases hm : mapGet s.entries id with _ | e
  · rw [cancelWait_not_found reason hm]
    exact h
  · rw [cancelWait_found reason hm]
    exact regInv_entries_delete h id

theorem RegInv_fireTimeout (id : Nat) {s : RegState} (h : RegInv s) :
    RegInv (fireTimeout id s) := by
  rcases hm : mapGet s.entries id with _ | e
  · unfold fireTimeout
    rw [hm]
    exact h
  · rw [fireTimeout_found hm]
    exact regInv_entries_delete h id

theorem RegInv_updateWait (id newMs : Nat) {s : RegState} {res : Nat × RegState}
    (h : RegInv s) (hok : updateWait id newMs s = Except.ok res) : RegInv res.2 := by
  rcases hm : mapGet s.entries id with _ | e
  · rw [updateWait_not_found newMs hm] at hok
    exact absurd hok (by simp)
  · rw [updateWait_found newMs hm] at hok
    have hres := (Except.ok.inj hok).symm
    subst hres
    have hid : id < s.nextId := by
      have hmem := mem_of_mapGet_eq_some hm
      exact h.2 id (List.mem_map_of_mem Prod.fst hmem)
    obtain ⟨hdnd, hdlt⟩ := regInv_entries_delete h id
    have hnotmem : id ∉ (mapDelete s.entries id).map Prod.fst := by
      intro hc
      obtain ⟨p, hp, hpe⟩ := List.mem_map.mp hc
      exact forall_ne_of_mapDelete s.entries id p hp hpe
    constructor
    · simp only []
      rw [mapSet_fresh _ (forall_ne_of_mapDelete s.entries id), List.map_append,
        List.nodup_append]
      refine ⟨hdnd, by simp, ?_⟩
      intro a ha hb
      simp only [List.map_cons, List.map_nil, List.mem_singleton] at hb
      rw [hb] at ha
      exact hnotmem ha
    · simp only []
      rw [mapSet_fresh _ (forall_ne_of_mapDelete s.entries id), List.map_append]
      intro k hk
      rcases List.mem_append.mp hk with hk | hk
      · exact hdlt k hk
      · simp only [List.map_cons, List.map_nil, List.mem_singleton] at hk
        omega

theorem teardownLoop_cons_ok (act : Nat × Entry → RegState → Except String RegState)
    (p : Nat × Entry) (rest : List (Nat × Entry)) (s next : RegState)
    (logs : List String) (h : act p s = Except.ok next) :
    teardownLoop act (p :: rest) s logs = teardownLoop act rest next logs := by
  have hstep : teardownLoop act (p :: rest) s logs =
      match act p s with
      | Except.ok next => teardownLoop act rest next logs
      | Except.error m => teardownLoop act rest s (logs ++ ["Cleanup error: " ++ m]) := rfl
  rw [hstep, h]

theorem teardownLoop_cons_err (act : Nat × Entry → RegState → Except String RegState)
    (p : Nat × Entry) (rest : List (Nat × Entry)) (s : RegState)
    (logs : List String) (m : String) (h : act p s = Except.error m) :
    teardownLoop act (p :: rest) s logs =
      teardownLoop act rest s (logs ++ ["Cleanup error: " ++ m]) := by
  have hstep : teardownLoop act (p :: rest) s logs =
      match act p s with
      | Except.ok next => teardownLoop act rest next logs
      | Except.error e => teardownLoop act rest s (logs ++ ["Cleanup error: " ++ e]) := rfl
  rw [hstep, h]

theorem teardownLoop_entries_sub :
    ∀ (l : List (Nat × Entry)) (s : RegState) (logs : List String),
    (teardownLoop teardownEntryAct l s logs).1.entries.Sublist s.entries ∧
    (teardownLoop teardownEntryAct l s logs).1.nextId = s.nextId := by
  intro l
  induction l with
  | nil => intro s logs; exact ⟨List.Sublist.refl _, rfl⟩
  | cons p rest ih =>
    intro s logs
    rw [teardownLoop_cons_ok teardownEntryAct p rest s _ logs rfl]
    have hnext := ih
      { s with
        settlements := settle s.settlements p.2.pid
          (Settlement.rejected (mkTimeoutError p.1 (some "Process exiting")))
        activeTimers := s.activeTimers.filter (fun t => t != p.2.tid)
        entries := mapDelete s.entries p.1 } logs
    exact ⟨hnext.1.trans (List.filter_sublist s.entries), hnext.2⟩

theorem RegInv_teardownAll {s : RegState} (h : RegInv s) : RegInv (teardownAll s).1 := by
  obtain ⟨hsub, hnext⟩ := teardownLoop_entries_sub s.entries s []
  constructor
  · exact List.Nodup.sublist (List.Sublist.map Prod.fst hsub) h.1
  · intro k hk
    rw [show (teardownAll s).1.nextId = s.nextId from hnext]
    exact h.2 k ((List.Sublist.map Prod.fst hsub).subset hk)

/-- C3 amended: the registry keeps at most one entry per identifier
across every operation (create, cancel, update, natural completion,
teardown); once an entry is removed by cancellation or natural
completion, any subsequent operation referencing that identifier
observes "not found" (cancel returns false; update raises the not-found
TimeoutError), never silently succeeding; update-replacement removes the
old entry but immediately reuses the identifier for the new entry, so
the identifier stays resolvable. -/
theorem registry_invariant_ops (s s2 : RegState) (pid2 : Nat)
    (ms id newMs : Nat) (reason reason2 : Option String) (hInv : RegInv s) :
    RegInv (waitWithId ms s).2 ∧
    RegInv (cancelWait id reason s).2 ∧
    (updateWait id newMs s = Except.ok (pid2, s2) → RegInv s2) ∧
    RegInv (fireTimeout id s) ∧
    RegInv (teardownAll s).1 ∧
    ((cancelWait id reason s).1 = true →
      cancelWait id reason2 (cancelWait id reason s).2 =
        (false, (cancelWait id reason s).2) ∧
      updateWait id newMs (cancelWait id reason s).2 =
        Except.error (mkTimeoutError id (some "Timeout not found"))) ∧
    (mapGet s.entries id ≠ none →
      cancelWait id reason (fireTimeout id s) = (false, fireTimeout id s) ∧
      updateWait id newMs (fireTimeout id s) =
        Except.error (mkTimeoutError id (some "Timeout not found"))) ∧
    (updateWait id newMs s = Except.ok (pid2, s2) → mapGet s2.entries id ≠ none) := by
  refine ⟨RegInv_waitWithId ms hInv, RegInv_cancelWait id reason hInv,
    fun hok => RegInv_updateWait id newMs hInv hok, RegInv_fireTimeout id hInv,
    RegInv_teardownAll hInv, ?_, ?_, ?_⟩
  · intro hc
    rcases hm : mapGet s.entries id with _ | e
    · rw [cancelWait_not_found reason hm] at hc
      simp at hc
    · rw [cancelWait_found reason hm]
      have hgone : mapGet (mapDelete s.entries id) id = none :=
        mapGet_mapDelete_self s.entries id
      exact ⟨cancelWait_not_found reason2 hgone, updateWait_not_found newMs hgone⟩
  · intro hne
    rcases hm : mapGet s.entries id with _ | e
    · exact absurd hm hne
    · rw [fireTimeout_found hm]
      have hgone : mapGet (mapDelete s.entries id) id = none :=
        mapGet_mapDelete_self s.entries id
      exact ⟨cancelWait_not_found reason hgone, updateWait_not_found newMs hgone⟩
  · intro hok
    rcases hm : mapGet s.entries id with _ | e
    · rw [updateWait_not_found newMs hm] at hok
      exact absurd hok (by simp)
    · rw [updateWait_found newMs hm] at hok
      injection hok with h2
      injection h2 with hpid hs2
      subst hs2
      simp only []
      rw [mapSet_fresh _ (forall_ne_of_mapDelete s.entries id)]
      rw [mapGet_append_fresh (forall_ne_of_mapDelete s.entries id)]
      simp

/-- Counterexample to C3 as frozen: after create(500) yields identifier
0 and update(0, 1000) replaces the entry (removing the old one), a
subsequent cancel referencing identifier 0 returns true — it finds the
replacing entry rather than observing "not found". -/
theorem registry_update_reuse_cex :
    (updateWait 0 1000 (waitWithId 500 emptyReg).2).map
        (fun res => (cancelWait 0 none res.2).1) = Except.ok true := by
  decide

/-- Witness for the amended C3 at a registry holding one live entry. -/
theorem registry_invariant_ops_witness :
    RegInv (waitWithId 200 (waitWithId 100 emptyReg).2).2 ∧
    RegInv (cancelWait 0 (some "stop") (waitWithId 100 emptyReg).2).2 ∧
    (updateWait 0 50 (waitWithId 100 emptyReg).2 = Except.ok (1,
        { entries := [(0, ⟨1, 1, 50, "Updated timeout ID: " ++ toString 0⟩)]
          settlements := [(0, Settlement.pending), (1, Settlement.pending)]
          activeTimers := [1]
          nextId := 1
          nextPid := 2
          nextTimer := 2 }) →
      RegInv ({ entries := [(0, ⟨1, 1, 50, "Updated timeout ID: " ++ toString 0⟩)]
                settlements := [(0, Settlement.pending), (1, Settlement.pending)]
                activeTimers := [1]
                nextId := 1
                nextPid := 2
                nextTimer := 2 } : RegState)) ∧
    RegInv (fireTimeout 0 (waitWithId 100 emptyReg).2) ∧
    RegInv (teardownAll (waitWithId 100 emptyReg).2).1 ∧
    ((cancelWait 0 (some "stop") (waitWithId 100 emptyReg).2).1 = true →
      cancelWait 0 none (cancelWait 0 (some "stop") (waitWithId 100 emptyReg).2).2 =
        (false, (cancelWait 0 (some "stop") (waitWithId 100 emptyReg).2).2) ∧
      updateWait 0 50 (cancelWait 0 (some "stop") (waitWithId 100 emptyReg).2).2 =
        Except.error (mkTimeoutError 0 (some "Timeout not found"))) ∧
    (mapGet (waitWithId 100 emptyReg).2.entries 0 ≠ none →
      cancelWait 0 (some "stop") (fireTimeout 0 (waitWithId 100 emptyReg).2) =
        (false, fireTimeout 0 (waitWithId 100 emptyReg).2) ∧
      updateWait 0 50 (fireTimeout 0 (waitWithId 100 emptyReg).2) =
        Except.error (mkTimeoutError 0 (some "Timeout not found"))) ∧
    (updateWait 0 50 (waitWithId 100 emptyReg).2 = Except.ok (1,
        { entries := [(0, ⟨1, 1, 50, "Updated timeout ID: " ++ toString 0⟩)]
          settlements := [(0, Settlement.pending), (1, Settlement.pending)]
          activeTimers := [1]
          nextId := 1
          nextPid := 2
          nextTimer := 2 }) →
      mapGet ({ entries := [(0, ⟨1, 1, 50, "Updated timeout ID: " ++ toString 0⟩)]
                settlements := [(0, Settlement.pending), (1, Settlement.pending)]
                activeTimers := [1]
                nextId := 1
                nextPid := 2
                nextTimer := 2 } : RegState).entries 0 ≠ none) :=
  registry_invariant_ops (waitWithId 100 emptyReg).2
    { entries := [(0, ⟨1, 1, 50, "Updated timeout ID: " ++ toString 0⟩)]
      settlements := [(0, Settlement.pending), (1, Settlement.pending)]
      activeTimers := [1]
      nextId := 1
      nextPid := 2
      nextTimer := 2 } 1 200 0 50 (some "stop") none (by decide)

/-! ### Teardown at process exit -/

theorem teardownLoop_settle_preserved :
    ∀ (l : List (Nat × Entry)) (s : RegState) (logs : List String) (pid : Nat),
    (∀ p ∈ l, p.2.pid ≠ pid) →
    settlementOf (teardownLoop teardownEntryAct l s logs).1.settlements pid =
      settlementOf s.settlements pid := by
  intro l
  induction l with
  | nil => intro s logs pid _; rfl
  | cons q rest ih =>
    intro s logs pid h
    rw [teardownLoop_cons_ok teardownEntryAct q rest s _ logs rfl]
    rw [ih _ logs pid (fun p hp => h p (List.mem_cons_of_mem q hp))]
    exact settlementOf_settle_ne _ _ _ _ (h q (List.mem_cons_self q rest)).symm

theorem teardownLoop_timers_subset :
    ∀ (l : List (Nat × Entry)) (s : RegState) (logs : List String) (t : Nat),
    t ∈ (teardownLoop teardownEntryAct l s logs).1.activeTimers → t ∈ s.activeTimers := by
  intro l
  induction l with
  | nil => intro s logs t ht; exact ht
  | cons q rest ih =>
    intro s logs t ht
    rw [teardownLoop_cons_ok teardownEntryAct q rest s _ logs rfl] at ht
    have := ih _ logs t ht
    exact (List.mem_filter.mp this).1

theorem teardownLoop_rejects :
    ∀ (l : List (Nat × Entry)) (s : RegState) (logs : List String),
    (l.map (fun p => p.2.pid)).Nodup →
    (∀ p ∈ l, settlementOf s.settlements p.2.pid = some Settlement.pending) →
    ∀ p ∈ l,
      settlementOf (teardownLoop teardownEntryAct l s logs).1.settlements p.2.pid =
        some (Settlement.rejected (mkTimeoutError p.1 (some "Process exiting"))) ∧
      p.2.tid ∉ (teardownLoop teardownEntryAct l s logs).1.activeTimers := by
  intro l
  induction l with
  | nil => intro s logs _ _ p hp; simp at hp
  | cons q rest ih =>
    intro s logs hnd hpend p hp
    have hndr := (List.nodup_cons.mp hnd).2
    have hqnot : q.2.pid ∉ rest.map (fun p => p.2.pid) := (List.nodup_cons.mp hnd).1
    rw [teardownLoop_cons_ok teardownEntryAct q rest s _ logs rfl]
    have hpendr : ∀ p ∈ rest,
        settlementOf (settle s.settlements q.2.pid
          (Settlement.rejected (mkTimeoutError q.1 (some "Process exiting")))) p.2.pid =
        some Settlement.pending := by
      intro p2 hp2
      have hne : p2.2.pid ≠ q.2.pid := by
        intro hc
        exact hqnot (hc ▸ List.mem_map_of_mem (fun p => p.2.pid) hp2)
      rw [settlementOf_settle_ne _ _ _ _ hne]
      exact hpend p2 (List.mem_cons_of_mem q hp2)
    rcases List.mem_cons.mp hp with hpq | hpr
    · subst hpq
      constructor
      · rw [teardownLoop_settle_preserved rest _ logs p.2.pid
          (fun p2 hp2 hc => hqnot (hc ▸ List.mem_map_of_mem (fun x => x.2.pid) hp2))]
        exact settlementOf_settle_self _ (hpend p (List.mem_cons_self p rest))
      · intro hc
        have hmem := teardownLoop_timers_subset rest _ logs p.2.tid hc
        have := (List.mem_filter.mp hmem).2
        simp at this
    · exact ih _ logs hndr hpendr p hpr

/-- C9: teardown-all rejects every remaining entry's promise with a
TimeoutError reasoned "Process exiting" and retires the entry's timer;
an exception raised while tearing down one entry is logged with a
"Cleanup error" line and not propagated, the loop proceeding with the
remaining entries. -/
theorem teardown_rejects_all (s : RegState) (p : Nat × Entry)
    (act : Nat × Entry → RegState → Except String RegState)
    (q : Nat × Entry) (rest : List (Nat × Entry)) (s3 : RegState)
    (logs : List String) (m : String)
    (hpids : (s.entries.map (fun p => p.2.pid)).Nodup)
    (hpend : ∀ p ∈ s.entries, settlementOf s.settlements p.2.pid = some Settlement.pending)
    (hp : p ∈ s.entries)
    (herr : act q s3 = Except.error m) :
    settlementOf (teardownAll s).1.settlements p.2.pid =
      some (Settlement.rejected (mkTimeoutError p.1 (some "Process exiting"))) ∧
    p.2.tid ∉ (teardownAll s).1.activeTimers ∧
    teardownLoop act (q :: rest) s3 logs =
      teardownLoop act rest s3 (logs ++ ["Cleanup error: " ++ m]) := by
  have h := teardownLoop_rejects s.entries s [] hpids hpend p hp
  exact ⟨h.1, h.2, teardownLoop_cons_err act q rest s3 logs m herr⟩

/-- Witness for C9: one live entry torn down at exit, and a faulty
per-entry action whose error is logged while the loop continues. -/
theorem teardown_rejects_all_witness :
    settlementOf (teardownAll (waitWithId 100 emptyReg).2).1.settlements 0 =
      some (Settlement.rejected (mkTimeoutError 0 (some "Process exiting"))) ∧
    (0 : Nat) ∉ (teardownAll (waitWithId 100 emptyReg).2).1.activeTimers ∧
    teardownLoop (fun _ _ => Except.error "boom")
        [(0, ⟨0, 0, 100, "Completed timeout ID: 0"⟩)] emptyReg [] =
      teardownLoop (fun _ _ => Except.error "boom") [] emptyReg
        ([] ++ ["Cleanup error: " ++ "boom"]) :=
  teardown_rejects_all (waitWithId 100 emptyReg).2
    (0, ⟨0, 0, 100, "Completed timeout ID: 0"⟩)
    (fun _ _ => Except.error "boom")
    (0, ⟨0, 0, 100, "Completed timeout ID: 0"⟩) [] emptyReg [] "boom"
    (by decide) (by decide) (by decide) rfl

end SmartWait
